import Mathlib

/-!
Verification of the rolling-update orchestrator in
`manager/orchestrator/updater.go` (package orchestrator).

The Go code is shallowly embedded: the pure computations of `Updater.Run`
(the dirty diff and the parallelism resolution) become Lean functions; the
concurrent parts (the dispatch loop with its `select` on `stopChan`, the
worker loop, `Updater.Cancel` and `UpdateSupervisor.CancelAll`) become
explicit state machines whose nondeterminism (which ready `select` case
fires, when a run goroutine finishes) is an oracle or a step relation.
The transactional store collaborator (package `manager/state/store`) is not
part of the repository slice, so its entity operations are modelled from the
specification; `Updater.updateTask` itself is translated line by line on top
of them.
-/

namespace Swarmkit

/-- Container specification (api.ContainerSpec): a structural value compared
with reflect.DeepEqual in the Go code.  The concrete fields stand for the
message fields; only structural equality of the whole value matters. -/
structure ContainerSpec where
  image : String
  command : List String
  args : List String
  env : List String
deriving DecidableEq

/-- The Go zero value `api.ContainerSpec` with no field set. -/
def ContainerSpec.zero : ContainerSpec :=
  { image := "", command := [], args := [], env := [] }

/-- Task states (api.TaskState), in their numeric order; the code compares
them with `>=` and assigns `api.TaskStateDead`. -/
inductive TaskState where
  | stateNew
  | pending
  | assigned
  | accepted
  | preparing
  | ready
  | starting
  | running
  | shutdown
  | failed
  | dead
deriving DecidableEq

/-- Service scheduling mode (api.ServiceMode): `api.ServiceModeRunning` or
`api.ServiceModeFill`. -/
inductive ServiceMode where
  | running
  | fill
deriving DecidableEq

/-- Update policy (api.UpdateConfig): `Parallelism` (0 = unlimited) and
`Delay` (a duration, 0 = none), both modelled as Nat. -/
structure UpdateConfig where
  parallelism : Nat
  delay : Nat
deriving DecidableEq

/-- Service specification (api.ServiceSpec): an optional container
specification (`GetContainer()` returns nil when absent), an optional update
policy (`Spec.Update`), and the scheduling mode. -/
structure ServiceSpec where
  container : Option ContainerSpec
  update : Option UpdateConfig
  mode : ServiceMode
deriving DecidableEq

/-- Service (api.Service): identifier and specification. -/
structure Service where
  id : String
  spec : ServiceSpec
deriving DecidableEq

/-- Task (api.Task): identifier, owning service, replica ordinal
(`Instance`), pinned node, the container specification the task carries
(`t.GetContainer().Spec`, a value: the zero value when never assigned),
desired state and last observed state (`Status.State`). -/
structure Task where
  id : String
  serviceID : String
  instanceOrd : Nat
  nodeID : String
  containerSpec : ContainerSpec
  desiredState : TaskState
  statusState : TaskState
deriving DecidableEq

/-- The dirty test of Updater.Run (updater.go lines 98-107), translated
clause by clause.  The first condition is the `continue`:
`service.Spec.GetContainer() == nil` and the task spec is the zero value.
Otherwise the task is appended iff
`!reflect.DeepEqual(service.Spec.GetContainer(), &(t.GetContainer().Spec))`;
DeepEqual of a nil pointer against the (always non-nil) address of the task
spec is false, and of two non-nil pointers compares the pointees. -/
def taskDirty (service : Service) (t : Task) : Bool :=
  if service.spec.container = none ∧ t.containerSpec = ContainerSpec.zero then
    false
  else if service.spec.container = some t.containerSpec then
    false
  else
    true

/-- The dirty subset computed by Updater.Run (lines 97-108), in original
task order. -/
def dirtyTasks (service : Service) (tasks : List Task) : List Task :=
  tasks.filter (taskDirty service)

/-- The dirty rule as the specification states it, written from its words to
compare with `taskDirty`: (a) the service has a non-empty container
specification and the task spec differs from it, or (b) the service
container specification is empty or absent while the task carries a
non-empty one. -/
def specDirty (service : Service) (t : Task) : Bool :=
  (match service.spec.container with
    | some c => decide (c ≠ ContainerSpec.zero) && decide (c ≠ t.containerSpec)
    | none => false)
  ||
  ((match service.spec.container with
    | some c => decide (c = ContainerSpec.zero)
    | none => true)
   && decide (t.containerSpec ≠ ContainerSpec.zero))

/-- The parallelism resolution of Updater.Run (lines 114-121): start from 0,
take `service.Spec.Update.Parallelism` when the policy is present, and fall
back to the number of dirty tasks when the result is 0. -/
def parallelismOf (service : Service) (dirty : List Task) : Nat :=
  let p := match service.spec.update with
    | some u => u.parallelism
    | none => 0
  if p = 0 then dirty.length else p

/-- The dispatch loop of Updater.Run (lines 135-144).  Iteration `i` handles
the i-th dirty task with `select { case <-u.stopChan: break; case taskQueue
<- t: }`.  `stopAt` is the iteration index from which `stopChan` is closed
(a closed channel stays ready forever); `pickStop i` resolves the
nondeterministic choice of the `select` when the stop case is ready.  The Go
`break` statement terminates only the `select`, not the `for` loop, so after
the stop case fires the loop continues with the next task. -/
def dispatchFrom (stopAt : Nat) (pickStop : Nat → Bool) : Nat → List Task → List Task
  | _, [] => []
  | i, t :: rest =>
    if stopAt ≤ i ∧ pickStop i = true then
      dispatchFrom stopAt pickStop (i + 1) rest
    else
      t :: dispatchFrom stopAt pickStop (i + 1) rest

/-- The tasks the dispatch loop hands to `taskQueue`, starting at
iteration 0. -/
def dispatchLoop (stopAt : Nat) (pickStop : Nat → Bool) (dirty : List Task) : List Task :=
  dispatchFrom stopAt pickStop 0 dirty

/-- The dispatch behaviour the specification describes, written from its
words: once the cancellation signal is observed, dispatching stops
immediately and the remaining dirty tasks are never handed out. -/
def dispatchStopping (stopAt : Nat) (pickStop : Nat → Bool) : Nat → List Task → List Task
  | _, [] => []
  | i, t :: rest =>
    if stopAt ≤ i ∧ pickStop i = true then
      []
    else
      t :: dispatchStopping stopAt pickStop (i + 1) rest

/-- Observable effects of one Updater.Run invocation: the dirty subset it
computed, how many worker goroutines it started (all sharing the one
unbuffered `taskQueue`), and which tasks it sent into that queue. -/
structure RunEffects where
  dirty : List Task
  workersStarted : Nat
  dispatched : List Task
deriving DecidableEq

/-- Updater.Run (lines 95-147) as a function of the service, the task list
and the scheduling oracles of the dispatch loop.  The early return at lines
110-112 fires when the dirty subset is empty, before any worker goroutine is
started. -/
def runModel (service : Service) (tasks : List Task) (stopAt : Nat)
    (pickStop : Nat → Bool) : RunEffects :=
  if (dirtyTasks service tasks).length = 0 then
    { dirty := dirtyTasks service tasks, workersStarted := 0, dispatched := [] }
  else
    { dirty := dirtyTasks service tasks
      workersStarted := parallelismOf service (dirtyTasks service tasks)
      dispatched := dispatchLoop stopAt pickStop (dirtyTasks service tasks) }

/-- Store transactions issued by a run: every task sent into `taskQueue` is
received by exactly one worker, which calls `u.updateTask` once for it, and
`updateTask` contains exactly one `u.store.Update` call; no other code path
of the run touches the store. -/
def RunEffects.storeTxCount (e : RunEffects) : Nat :=
  e.dispatched.length

/-- One record written by the worker on a failed replacement
(`log.G(ctx).WithError(err).WithField("task.id", t.ID)`, line 156):
the original task identifier the record is tagged with, and the error. -/
structure LogEntry where
  taskID : String
  message : String
deriving DecidableEq

/-- Observable effects of one worker goroutine (lines 149-168): the tasks it
pulled from the queue and put through `u.updateTask`, and the error records
it logged. -/
structure WorkerEffects where
  processed : List Task
  logs : List LogEntry
deriving DecidableEq

/-- The guard of the pause at the end of the worker loop body (line 159):
`service.Spec.Update != nil && service.Spec.Update.Delay != 0`. -/
def workerDelayed (service : Service) : Bool :=
  match service.spec.update with
  | some u => decide (u.delay ≠ 0)
  | none => false

/-- The records the worker logs for one task (lines 155-157): one entry
tagged with the original task identifier when `u.updateTask` returned an
error, none otherwise. -/
def workerLog (txErr : Task → Option String) (t : Task) : List LogEntry :=
  match txErr t with
  | some e => [{ taskID := t.id, message := e }]
  | none => []

/-- Updater.worker (lines 149-168) over the list of tasks it will receive
from the queue, in order.  `txErr t` is the result of `u.updateTask` for the
replacement of `t` (`some e` = the store rejected the transaction with `e`).
After each task, when the update policy carries a non-zero delay, the worker
selects between `time.After(delay)` and `<-u.stopChan`; `stopDuring i = true`
means the stop case fired during the i-th pause, upon which the worker
returns.  Index `i` counts the tasks this worker has processed. -/
def workerModel (service : Service) (txErr : Task → Option String)
    (stopDuring : Nat → Bool) : Nat → List Task → WorkerEffects
  | _, [] => { processed := [], logs := [] }
  | i, t :: rest =>
    if workerDelayed service = true ∧ stopDuring i = true then
      { processed := [t], logs := workerLog txErr t }
    else
      { processed := t :: (workerModel service txErr stopDuring (i + 1) rest).processed
        logs := workerLog txErr t ++ (workerModel service txErr stopDuring (i + 1) rest).logs }

/-- The transactional view of the store: the task table, keyed by task
identifier.  The store package is outside the repository slice, so the
entity operations below are modelled from the specification. -/
abbrev Store := List Task

/-- Error text of a rejected UpdateTask. -/
def errUpdateMissing : String := "update of nonexistent task"

/-- Error text of a rejected CreateTask. -/
def errCreateExists : String := "task id exists"

namespace store

/-- Modelled from the spec: `store.GetTask(tx, id)` is a transaction-scoped
entity read, the task with the given identifier in the transactional view,
or nothing when absent (the Go function returns a nil pointer then). -/
def GetTask (s : Store) (id : String) : Option Task :=
  s.find? fun t => decide (t.id = id)

/-- Modelled from the spec: `store.UpdateTask(tx, t)` overwrites the stored
task with identifier `t.ID` in the transactional view; the operation fails
when no such task exists. -/
def UpdateTask (s : Store) (t : Task) : Except String Store :=
  if (GetTask s t.id).isSome = true then
    Except.ok (s.map fun x => if x.id = t.id then t else x)
  else
    Except.error errUpdateMissing

/-- Modelled from the spec: `store.CreateTask(tx, t)` inserts a new task
into the transactional view; the operation fails when the identifier is
already taken. -/
def CreateTask (s : Store) (t : Task) : Except String Store :=
  if (GetTask s t.id).isSome = true then
    Except.error errCreateExists
  else
    Except.ok (s ++ [t])

end store

/-- Outcome of running the transaction function of `u.store.Update` against
one transactional view: a nil-pointer dereference (a Go panic), a rejection
(the function returned an error, the store commits nothing), or a commit of
the new view. -/
inductive TxResult where
  | panicked
  | rejected (e : String)
  | committed (s : Store)
deriving DecidableEq

/-- The transaction closure of Updater.updateTask (updater.go lines
180-191), line by line: `t := store.GetTask(tx, original.ID)` (the result is
dereferenced by `t.DesiredState = api.TaskStateDead` with no nil check, so
an absent original is a panic), then `store.UpdateTask(tx, t)` and
`store.CreateTask(tx, updated)`, each returning its error to the
transaction. -/
def updateTaskTxn (original updated : Task) (s : Store) : TxResult :=
  match store.GetTask s original.id with
  | none => TxResult.panicked
  | some t =>
    let t := { t with desiredState := TaskState.dead }
    match store.UpdateTask s t with
    | Except.error e => TxResult.rejected e
    | Except.ok s1 =>
      match store.CreateTask s1 updated with
      | Except.error e => TxResult.rejected e
      | Except.ok s2 => TxResult.committed s2

/-- What Updater.updateTask leaves behind around its one `u.store.Update`
call: the store after the atomic commit-or-reject (modelled from the spec:
the store commits the transaction atomically or rejects it wholesale,
leaving the view unchanged), the error returned to the worker, and whether
the transaction function panicked. -/
structure UpdateTaskOutcome where
  finalStore : Store
  returnedErr : Option String
  panicked : Bool
deriving DecidableEq

/-- Updater.updateTask (lines 179-196) around the store: on rejection the
error is returned to the caller (`if err != nil { return err }`) and the
store is unchanged; on commit the new view is installed and the protocol
proceeds to its wait. -/
def updateTaskModel (original updated : Task) (s : Store) : UpdateTaskOutcome :=
  match updateTaskTxn original updated s with
  | TxResult.panicked => { finalStore := s, returnedErr := none, panicked := true }
  | TxResult.rejected e => { finalStore := s, returnedErr := some e, panicked := false }
  | TxResult.committed s2 => { finalStore := s2, returnedErr := none, panicked := false }

/-- The externally visible actions of one Updater.updateTask invocation, in
program order: establishing the watch on update-events for a task
identifier (`state.Watch(u.watchQueue, state.EventUpdateTask{...ID:
updated.ID...})`), issuing the store transaction (`u.store.Update`),
entering the wait-for-running loop, and releasing the watch (the deferred
`cancel()`). -/
inductive UAction where
  | watchUpdates (taskID : String)
  | storeTx
  | waitForRunning
  | cancelWatch
deriving DecidableEq

/-- The action trace of Updater.updateTask (lines 170-207): the watch is
established first (line 172, before any write, per the comment at line 171),
then the single store transaction; on error updateTask returns (the deferred
cancel still runs), otherwise it waits for the successor to reach running
and then releases the watch. -/
def updateTaskTrace (original updated : Task) (s : Store) : List UAction :=
  UAction.watchUpdates updated.id ::
  UAction.storeTx ::
  (match updateTaskTxn original updated s with
   | TxResult.committed _ => [UAction.waitForRunning, UAction.cancelWatch]
   | _ => [UAction.cancelWatch])

/-- Channel state of one update run: whether its `stopChan` and its
`doneChan` have been closed.  Closing is the only operation the code
performs on either channel; a receive from a closed channel completes
immediately and a receive from an open one blocks. -/
structure RunChans where
  stopClosed : Bool
  doneClosed : Bool
deriving DecidableEq

/-- Program counter of one Updater.Cancel call (updater.go lines 89-92):
about to execute `close(u.stopChan)`; blocked at `<-u.doneChan`; returned;
or panicked (in Go, closing an already closed channel panics). -/
inductive CancelPC where
  | entry
  | waitDone
  | returned
  | panicked
deriving DecidableEq

/-- One step of an Updater.Cancel call against the channels of its run:
`none` means the call cannot advance (it is blocked, or it has already
terminated).  From `entry`, `close(u.stopChan)` panics when the channel is
already closed, else closes it; from `waitDone`, `<-u.doneChan` completes
only once `doneChan` is closed. -/
def cancelStep : CancelPC → RunChans → Option (CancelPC × RunChans)
  | CancelPC.entry, ch =>
    if ch.stopClosed = true then
      some (CancelPC.panicked, ch)
    else
      some (CancelPC.waitDone, { ch with stopClosed := true })
  | CancelPC.waitDone, ch =>
    if ch.doneClosed = true then
      some (CancelPC.returned, ch)
    else
      none
  | CancelPC.returned, _ => none
  | CancelPC.panicked, _ => none

/-- Program counter of one UpdateSupervisor.CancelAll call (lines 57-65),
which under the registry lock runs `update.Cancel()` for each registered
run in turn: `cancelling k` = about to call Cancel on run `k` (that is,
about to execute its `close(stopChan)`); `waiting k` = inside that Cancel,
blocked at `<-doneChan` of run `k`; `returned`; `panicked`. -/
inductive CAPC where
  | cancelling (k : Nat)
  | waiting (k : Nat)
  | returned
  | panicked
deriving DecidableEq

/-- State of the CancelAll system: the channels of the registered runs (the
registry is snapshotted by the lock: no run is added or removed while
CancelAll holds it) and the CancelAll program counter. -/
structure CAState where
  runs : List RunChans
  pc : CAPC
deriving DecidableEq

/-- Interleaved small-step semantics of CancelAll running against the run
goroutines.  CancelAll steps: close the stop channel of run `k` (a panic if
already closed) and enter the blocking receive on its done channel; complete
that receive once the done channel is closed, moving to the next run or
returning after the last; return at once when no run remains.  Environment
step: a run goroutine finishes, `defer close(u.doneChan)` in Updater.Run
closing its done channel. -/
inductive CAStep : CAState → CAState → Prop where
  | closeStopOk (s : CAState) (k : Nat) (r : RunChans)
      (hpc : s.pc = CAPC.cancelling k) (hk : s.runs.get? k = some r)
      (hs : r.stopClosed = false) :
      CAStep s { runs := s.runs.set k { r with stopClosed := true }, pc := CAPC.waiting k }
  | closeStopPanic (s : CAState) (k : Nat) (r : RunChans)
      (hpc : s.pc = CAPC.cancelling k) (hk : s.runs.get? k = some r)
      (hs : r.stopClosed = true) :
      CAStep s { runs := s.runs, pc := CAPC.panicked }
  | recvDone (s : CAState) (k : Nat) (r : RunChans)
      (hpc : s.pc = CAPC.waiting k) (hk : s.runs.get? k = some r)
      (hd : r.doneClosed = true) :
      CAStep s { runs := s.runs
                 pc := if k + 1 < s.runs.length then CAPC.cancelling (k + 1) else CAPC.returned }
  | loopDone (s : CAState) (k : Nat)
      (hpc : s.pc = CAPC.cancelling k) (hk : s.runs.length ≤ k) :
      CAStep s { runs := s.runs, pc := CAPC.returned }
  | runFinishes (s : CAState) (k : Nat) (r : RunChans)
      (hk : s.runs.get? k = some r) (hd : r.doneClosed = false) :
      CAStep s { runs := s.runs.set k { r with doneClosed := true }, pc := s.pc }

/-- Reachability in the CancelAll system. -/
abbrev CAReach : CAState → CAState → Prop :=
  Relation.ReflTransGen CAStep

/-- Every run at an index below `k` has its done channel closed. -/
def doneUpTo (runs : List RunChans) (k : Nat) : Prop :=
  ∀ j, j < k → ∀ r, runs.get? j = some r → r.doneClosed = true

/-- Inductive invariant of the CancelAll system: the runs CancelAll has
moved past are all fully drained, and at return every registered run is. -/
def caInv (s : CAState) : Prop :=
  (∀ k, s.pc = CAPC.cancelling k → doneUpTo s.runs k)
  ∧ (∀ k, s.pc = CAPC.waiting k → doneUpTo s.runs k)
  ∧ (s.pc = CAPC.returned → doneUpTo s.runs s.runs.length)

/-! Concrete fixtures used to instantiate the theorems. -/

/-- A non-empty container specification. -/
def csRedis : ContainerSpec :=
  { image := "redis", command := [], args := [], env := [] }

/-- A task fixture with the given identifier and container specification. -/
def mkTask (id : String) (cs : ContainerSpec) : Task :=
  { id := id, serviceID := "s1", instanceOrd := 0, nodeID := "n1"
    containerSpec := cs, desiredState := TaskState.running
    statusState := TaskState.running }

/-- Fixture task A (never assigned a container). -/
def tA : Task := mkTask "tA" ContainerSpec.zero

/-- Fixture task B. -/
def tB : Task := mkTask "tB" ContainerSpec.zero

/-- Fixture task C. -/
def tC : Task := mkTask "tC" ContainerSpec.zero

/-- Fixture task D. -/
def tD : Task := mkTask "tD" ContainerSpec.zero

/-- Fixture successor task, carrying the new container specification. -/
def tUpd : Task := mkTask "tA2" csRedis

/-- Fixture store holding only the original task A. -/
def s0 : Store := [tA]

/-- Fixture service with a container specification and update policy
`Parallelism 2, Delay 0`; the zero-spec fixture tasks are dirty under it. -/
def svcPar : Service :=
  { id := "svc6"
    spec := { container := some csRedis
              update := some { parallelism := 2, delay := 0 }
              mode := ServiceMode.running } }

/-- Fixture service with no container specification and no update policy;
the zero-spec fixture tasks are clean under it. -/
def svcClean : Service :=
  { id := "svc8"
    spec := { container := none, update := none, mode := ServiceMode.running } }

/-- Select resolution for the dispatch counterexample: at iteration 1 the
stop case fires; at every other iteration the send case does. -/
def pickAtOne (i : Nat) : Bool := i == 1

/-- Run channels after a completed first close of stopChan, the run itself
still in flight. -/
def chDouble : RunChans := { stopClosed := true, doneClosed := false }

/-- CancelAll system, initial state: one registered run, neither of its
channels closed, CancelAll about to cancel it. -/
def caS0 : CAState :=
  { runs := [{ stopClosed := false, doneClosed := false }], pc := CAPC.cancelling 0 }

/-- CancelAll system after `close(stopChan)` of the run: CancelAll is
blocked at `<-doneChan`. -/
def caS1 : CAState :=
  { runs := [{ stopClosed := true, doneClosed := false }], pc := CAPC.waiting 0 }

/-- CancelAll system after the run goroutine finished and closed its done
channel. -/
def caS2 : CAState :=
  { runs := [{ stopClosed := true, doneClosed := true }], pc := CAPC.waiting 0 }

/-- CancelAll system once the receive completed and CancelAll returned. -/
def caS3 : CAState :=
  { runs := [{ stopClosed := true, doneClosed := true }], pc := CAPC.returned }

/-! Helper lemmas. -/

/-- The dirty test of the code agrees with the dirty rule of the
specification on every (service, task) pair. -/
theorem taskDirty_eq_specDirty (service : Service) (t : Task) :
    taskDirty service t = specDirty service t := by
  unfold taskDirty specDirty
  cases hc : service.spec.container with
  | none =>
    by_cases hz : t.containerSpec = ContainerSpec.zero <;> simp [hz]
  | some c =>
    by_cases hz : c = ContainerSpec.zero
    · subst hz
      by_cases ht : t.containerSpec = ContainerSpec.zero
      · simp [ht]
      · have ht2 : ¬ ContainerSpec.zero = t.containerSpec := fun h => ht h.symm
        simp [ht, ht2]
    · by_cases he : c = t.containerSpec <;> simp [hz, he]

/-- Every task the dispatch loop hands out comes from its input list. -/
theorem dispatchFrom_subset (stopAt : Nat) (pickStop : Nat → Bool) :
    ∀ (l : List Task) (i : Nat) (t : Task),
      t ∈ dispatchFrom stopAt pickStop i l → t ∈ l := by
  intro l
  induction l with
  | nil =>
    intro i t h
    simp [dispatchFrom] at h
  | cons a rest ih =>
    intro i t h
    unfold dispatchFrom at h
    split at h
    · exact List.mem_cons_of_mem a (ih (i + 1) t h)
    · rcases List.mem_cons.mp h with h1 | h2
      · exact h1 ▸ List.mem_cons_self a rest
      · exact List.mem_cons_of_mem a (ih (i + 1) t h2)

/-- Every task a run sends into the queue is a member of its dirty subset. -/
theorem runModel_dispatched_subset (service : Service) (tasks : List Task)
    (stopAt : Nat) (pickStop : Nat → Bool) :
    ∀ t, t ∈ (runModel service tasks stopAt pickStop).dispatched →
      t ∈ dirtyTasks service tasks := by
  intro t h
  unfold runModel at h
  split at h
  · simp at h
  · exact dispatchFrom_subset stopAt pickStop _ 0 t h

/-! Claim theorems. -/

/-- Claim C1 (confirmed): a task is appended to the dirty subset iff the
dirty rule of the specification holds for it — (a) the service has a
non-empty container specification and the task specification differs from
it, or (b) the service container specification is empty or absent while the
task carries a non-empty one — and every task a run ever places on the work
queue satisfies that rule, so clean tasks are never queued. -/
theorem C1_dirty_diffing (service : Service) (tasks : List Task) (t : Task) :
    (t ∈ dirtyTasks service tasks ↔ (t ∈ tasks ∧ specDirty service t = true))
    ∧ ∀ stopAt pickStop,
        ((runModel service tasks stopAt pickStop).dispatched.all
          fun x => specDirty service x) = true := by
  constructor
  · rw [dirtyTasks, List.mem_filter, taskDirty_eq_specDirty]
  · intro stopAt pickStop
    rw [List.all_eq_true]
    intro x hx
    have hmem := runModel_dispatched_subset service tasks stopAt pickStop x hx
    rw [dirtyTasks, List.mem_filter, taskDirty_eq_specDirty] at hmem
    exact hmem.2

/-- Claim C2 (code bug, evaluated at the failing input): four dirty tasks,
stopChan closed from iteration 1 on.  The execution in which the select of
iteration 1 takes the stop case and the select of iteration 2 takes the send
case is legal (a select over a closed channel and a ready send picks either
case), because the Go `break` at line 138 terminates only the `select`: the
loop goes on and still dispatches tasks C and D after the cancellation
signal was observed.  The behaviour the specification describes
(`dispatchStopping`, stop immediately) would dispatch task A alone. -/
theorem C2_dispatch_after_cancel :
    dispatchLoop 1 pickAtOne [tA, tB, tC, tD] = [tA, tC, tD]
    ∧ pickAtOne 1 = true
    ∧ dispatchStopping 1 pickAtOne 0 [tA, tB, tC, tD] = [tA] := by
  refine ⟨?_, rfl, ?_⟩ <;> decide

/-- The processed prefix of the worker loop does not depend on which
replacements fail: an updateTask error is logged and the loop moves to the
next queued task exactly as on success. -/
theorem workerModel_processed_congr (service : Service)
    (f g : Task → Option String) (stopDuring : Nat → Bool) :
    ∀ (q : List Task) (i : Nat),
      (workerModel service f stopDuring i q).processed
        = (workerModel service g stopDuring i q).processed := by
  intro q
  induction q with
  | nil => intro i; rfl
  | cons t rest ih =>
    intro i
    unfold workerModel
    by_cases h : workerDelayed service = true ∧ stopDuring i = true
    · rw [if_pos h, if_pos h]
    · rw [if_neg h, if_neg h]
      simp [ih (i + 1)]

/-- The worker logs exactly one record per processed task whose replacement
failed, tagged with that task identifier and carrying the returned error. -/
theorem workerModel_logs_spec (service : Service) (f : Task → Option String)
    (stopDuring : Nat → Bool) :
    ∀ (q : List Task) (i : Nat),
      (workerModel service f stopDuring i q).logs
        = (workerModel service f stopDuring i q).processed.filterMap
            (fun t => (f t).map fun e => { taskID := t.id, message := e }) := by
  intro q
  induction q with
  | nil => intro i; rfl
  | cons t rest ih =>
    intro i
    unfold workerModel
    by_cases h : workerDelayed service = true ∧ stopDuring i = true
    · rw [if_pos h]
      cases hft : f t <;> simp [workerLog, hft]
    · rw [if_neg h]
      cases hft : f t <;> simp [workerLog, hft, ih (i + 1)]

/-- Claim C6 (confirmed): when the dirty subset is non-empty, the number of
worker goroutines Run starts (all on the one shared queue) is the configured
parallelism when an update policy is present with non-zero parallelism, and
the number of dirty tasks when the policy is absent or its parallelism
is 0. -/
theorem C6_parallelism (service : Service) (tasks : List Task)
    (stopAt : Nat) (pickStop : Nat → Bool)
    (h : dirtyTasks service tasks ≠ []) :
    (runModel service tasks stopAt pickStop).workersStarted
        = parallelismOf service (dirtyTasks service tasks)
    ∧ (∀ u, service.spec.update = some u → u.parallelism ≠ 0 →
         parallelismOf service (dirtyTasks service tasks) = u.parallelism)
    ∧ ((service.spec.update = none
          ∨ ∃ u, service.spec.update = some u ∧ u.parallelism = 0) →
         parallelismOf service (dirtyTasks service tasks)
           = (dirtyTasks service tasks).length) := by
  have hlen : ¬ (dirtyTasks service tasks).length = 0 := by
    simpa [List.length_eq_zero] using h
  refine ⟨?_, ?_, ?_⟩
  · unfold runModel
    rw [if_neg hlen]
  · intro u hu hp
    unfold parallelismOf
    rw [hu]
    simp [hp]
  · rintro (hn | ⟨u, hu, hp⟩) <;> unfold parallelismOf
    · rw [hn]
      rfl
    · rw [hu]
      simp [hp]

/-- Witness for C6 at a concrete input: a service with parallelism 2 and one
dirty task. -/
theorem C6_parallelism_witness :
    dirtyTasks svcPar [tA] ≠ []
    ∧ ((runModel svcPar [tA] 99 pickAtOne).workersStarted
          = parallelismOf svcPar (dirtyTasks svcPar [tA])
       ∧ (∀ u, svcPar.spec.update = some u → u.parallelism ≠ 0 →
            parallelismOf svcPar (dirtyTasks svcPar [tA]) = u.parallelism)
       ∧ ((svcPar.spec.update = none
             ∨ ∃ u, svcPar.spec.update = some u ∧ u.parallelism = 0) →
            parallelismOf svcPar (dirtyTasks svcPar [tA])
              = (dirtyTasks svcPar [tA]).length)) :=
  ⟨by decide, C6_parallelism svcPar [tA] 99 pickAtOne (by decide)⟩

/-- Claim C7 (confirmed): a failed replacement changes nothing in the worker
loop control flow — the tasks a worker processes are the same whatever the
transaction errors are, so a single failure neither aborts the run nor
propagates an error upward — and its only effect is one log record tagged
with the original task identifier and carrying the error. -/
theorem C7_error_isolation (service : Service) (f g : Task → Option String)
    (stopDuring : Nat → Bool) (i : Nat) (q : List Task) :
    (workerModel service f stopDuring i q).processed
        = (workerModel service g stopDuring i q).processed
    ∧ (workerModel service f stopDuring i q).logs
        = (workerModel service f stopDuring i q).processed.filterMap
            (fun t => (f t).map fun e => { taskID := t.id, message := e }) :=
  ⟨workerModel_processed_congr service f g stopDuring q i,
   workerModel_logs_spec service f stopDuring q i⟩

/-- Claim C8 (confirmed): when every task is clean, Run takes the early
return at lines 110-112: no worker goroutine is started, nothing is ever
placed on the queue, and no store transaction is issued, so the store is
left unchanged. -/
theorem C8_noop_fast_path (service : Service) (tasks : List Task)
    (stopAt : Nat) (pickStop : Nat → Bool)
    (h : ∀ t ∈ tasks, taskDirty service t = false) :
    runModel service tasks stopAt pickStop
        = { dirty := [], workersStarted := 0, dispatched := [] }
    ∧ (runModel service tasks stopAt pickStop).storeTxCount = 0 := by
  have hd : dirtyTasks service tasks = [] := by
    rw [dirtyTasks, List.filter_eq_nil_iff]
    intro a ha
    simp [h a ha]
  have h1 : runModel service tasks stopAt pickStop
      = { dirty := [], workersStarted := 0, dispatched := [] } := by
    unfold runModel
    rw [hd]
    rfl
  exact ⟨h1, by rw [RunEffects.storeTxCount, h1]; rfl⟩

/-- Witness for C8 at a concrete input: a service with no container
specification and one task that never carried one. -/
theorem C8_noop_fast_path_witness :
    (∀ t ∈ [tA], taskDirty svcClean t = false)
    ∧ (runModel svcClean [tA] 0 pickAtOne
          = { dirty := [], workersStarted := 0, dispatched := [] }
       ∧ (runModel svcClean [tA] 0 pickAtOne).storeTxCount = 0) :=
  ⟨by decide, C8_noop_fast_path svcClean [tA] 0 pickAtOne (by decide)⟩

/-- A task GetTask returns carries the requested identifier. -/
theorem getTask_id {s : Store} {id : String} {t : Task}
    (h : store.GetTask s id = some t) : t.id = id := by
  unfold store.GetTask at h
  have hp := List.find?_some h
  simpa using hp

/-- GetTask succeeds exactly when the identifier is present in the store. -/
theorem getTask_isSome_iff {s : Store} {id : String} :
    (store.GetTask s id).isSome = true ↔ id ∈ s.map Task.id := by
  rw [store.GetTask, List.find?_isSome]
  simp [List.mem_map]

/-- Replacing the tasks bearing an identifier by a task with that same
identifier leaves the identifier column of the store unchanged. -/
theorem ids_map_replace (s : Store) (idv : String) (rep : Task)
    (hrep : rep.id = idv) :
    ((s.map fun x => if x.id = idv then rep else x).map Task.id)
      = s.map Task.id := by
  rw [List.map_map]
  apply List.map_congr_left
  intro a _
  by_cases h : a.id = idv
  · simp [Function.comp, h, hrep]
  · simp [Function.comp, h]

/-- Under unique identifiers, any member carrying the looked-up identifier
is the task GetTask found. -/
theorem getTask_unique : ∀ (s : Store), (s.map Task.id).Nodup →
    ∀ (id : String) (t0 x : Task),
      store.GetTask s id = some t0 → x ∈ s → x.id = id → x = t0 := by
  intro s
  induction s with
  | nil =>
    intro _ id t0 x h
    simp [store.GetTask] at h
  | cons a rest ih =>
    intro hnd id t0 x hfind hx hxid
    rw [List.map_cons, List.nodup_cons] at hnd
    rw [store.GetTask, List.find?_cons] at hfind
    by_cases ha : a.id = id
    · rw [decide_eq_true ha] at hfind
      simp only [] at hfind
      rcases List.mem_cons.mp hx with rfl | hxr
      · exact Option.some.inj hfind
      · exact absurd (List.mem_map.mpr ⟨x, hxr, by rw [hxid, ha]⟩) hnd.1
    · rw [decide_eq_false ha] at hfind
      simp only [] at hfind
      rcases List.mem_cons.mp hx with rfl | hxr
      · exact absurd hxid ha
      · exact ih hnd.2 id t0 x hfind hxr hxid

/-- Claim C4 (confirmed): wherever the store transaction sits in the action
trace of updateTask, a watch on update-events for the successor identifier
was established at a strictly earlier position — the subscription exists
before the write is issued, so an event emitted right after the commit falls
inside the subscription and is not missed. -/
theorem C4_watch_before_write (original updated : Task) (s : Store) (j : Nat)
    (hj : (updateTaskTrace original updated s).get? j = some UAction.storeTx) :
    ∃ i, i < j ∧ (updateTaskTrace original updated s).get? i
        = some (UAction.watchUpdates updated.id) := by
  refine ⟨0, ?_, rfl⟩
  cases j with
  | zero =>
    rw [updateTaskTrace] at hj
    simp at hj
  | succ k => exact Nat.succ_pos k

/-- Witness for C4 at a concrete input: the transaction of the fixture
replacement sits at position 1 and the watch on the successor at
position 0. -/
theorem C4_watch_before_write_witness :
    (updateTaskTrace tA tUpd s0).get? 1 = some UAction.storeTx
    ∧ ∃ i, i < 1 ∧ (updateTaskTrace tA tUpd s0).get? i
        = some (UAction.watchUpdates tUpd.id) :=
  ⟨rfl, C4_watch_before_write tA tUpd s0 1 rfl⟩

/-- Claim C10 (confirmed): the transaction function panics exactly when the
original task is absent from the store at transaction time — the result of
GetTask is dereferenced with no nil check, so deletion of the original turns
the transaction into a nil dereference instead of a rejection error; when
the original is present the transaction never panics. -/
theorem C10_get_task_nil_deref (original updated : Task) (s : Store) :
    updateTaskTxn original updated s = TxResult.panicked
      ↔ store.GetTask s original.id = none := by
  cases h : store.GetTask s original.id with
  | none => simp [updateTaskTxn, h]
  | some t =>
    have hne : updateTaskTxn original updated s ≠ TxResult.panicked := by
      cases h1 : store.UpdateTask s { t with desiredState := TaskState.dead } with
      | error e => simp [updateTaskTxn, h, h1]
      | ok s1 =>
        cases h2 : store.CreateTask s1 updated with
        | error e => simp [updateTaskTxn, h, h1, h2]
        | ok s2 => simp [updateTaskTxn, h, h1, h2]
    simp [hne]

/-- Claim C5 (confirmed, store operations modelled from the spec): when the
original task is still stored, the one transaction of updateTask either
commits exactly the two claimed operations — the original task with its
desired state set to dead, every other task untouched, and the successor
created under its fresh identifier — or is rejected wholesale, in which case
the store is unchanged and the error is returned to the caller; and the
trace of updateTask contains exactly one store transaction. -/
theorem C5_transaction_effect (original updated : Task) (s : Store)
    (hpresent : (store.GetTask s original.id).isSome = true)
    (hids : (s.map Task.id).Nodup) :
    (updated.id ∉ s.map Task.id →
       updateTaskTxn original updated s
         = TxResult.committed
             ((s.map fun x =>
                 if x.id = original.id then { x with desiredState := TaskState.dead }
                 else x)
               ++ [updated])
       ∧ updateTaskModel original updated s
         = { finalStore :=
               (s.map fun x =>
                 if x.id = original.id then { x with desiredState := TaskState.dead }
                 else x)
               ++ [updated]
             returnedErr := none
             panicked := false })
    ∧ (∀ e, updateTaskTxn original updated s = TxResult.rejected e →
         updateTaskModel original updated s
           = { finalStore := s, returnedErr := some e, panicked := false })
    ∧ (updateTaskTrace original updated s).count UAction.storeTx = 1 := by
  obtain ⟨t0, ht0⟩ := Option.isSome_iff_exists.mp hpresent
  have ht0id : t0.id = original.id := getTask_id ht0
  refine ⟨?_, ?_, ?_⟩
  · intro hnew
    have hg : (store.GetTask s ({ t0 with desiredState := TaskState.dead } : Task).id).isSome
        = true := by
      show (store.GetTask s t0.id).isSome = true
      rw [ht0id]
      exact hpresent
    have hu : store.UpdateTask s { t0 with desiredState := TaskState.dead }
        = Except.ok (s.map fun x =>
            if x.id = t0.id then { t0 with desiredState := TaskState.dead } else x) := by
      unfold store.UpdateTask
      rw [if_pos hg]
    have hcguard : ¬ (store.GetTask
        (s.map fun x => if x.id = t0.id then { t0 with desiredState := TaskState.dead } else x)
        updated.id).isSome = true := by
      rw [getTask_isSome_iff,
        ids_map_replace s t0.id { t0 with desiredState := TaskState.dead } rfl]
      exact hnew
    have hc : store.CreateTask
        (s.map fun x => if x.id = t0.id then { t0 with desiredState := TaskState.dead } else x)
        updated
        = Except.ok
            ((s.map fun x =>
               if x.id = t0.id then { t0 with desiredState := TaskState.dead } else x)
             ++ [updated]) := by
      unfold store.CreateTask
      rw [if_neg hcguard]
    have hmaps : (s.map fun x =>
          if x.id = t0.id then { t0 with desiredState := TaskState.dead } else x)
        = s.map fun x =>
          if x.id = original.id then { x with desiredState := TaskState.dead } else x := by
      apply List.map_congr_left
      intro x hx
      by_cases hxid : x.id = original.id
      · have hxid2 : x.id = t0.id := by rw [hxid, ht0id]
        rw [if_pos hxid2, if_pos hxid,
          getTask_unique s hids original.id t0 x ht0 hx hxid]
      · have hxid2 : ¬ x.id = t0.id := by rw [ht0id]; exact hxid
        rw [if_neg hxid2, if_neg hxid]
    have htxn : updateTaskTxn original updated s
        = TxResult.committed
            ((s.map fun x =>
               if x.id = original.id then { x with desiredState := TaskState.dead } else x)
             ++ [updated]) := by
      simp only [updateTaskTxn, ht0, hu, hc]
      rw [hmaps]
    exact ⟨htxn, by simp only [updateTaskModel, htxn]⟩
  · intro e he
    simp only [updateTaskModel, he]
  · cases h : updateTaskTxn original updated s <;>
      simp [updateTaskTrace, h, List.count_cons, List.count_nil]

/-- Witness for C5 at a concrete input: the fixture store holds the original
task A; replacing it with the fixture successor. -/
theorem C5_transaction_effect_witness :
    ((store.GetTask s0 tA.id).isSome = true ∧ (s0.map Task.id).Nodup)
    ∧ ((tUpd.id ∉ s0.map Task.id →
          updateTaskTxn tA tUpd s0
            = TxResult.committed
                ((s0.map fun x =>
                    if x.id = tA.id then { x with desiredState := TaskState.dead }
                    else x)
                  ++ [tUpd])
          ∧ updateTaskModel tA tUpd s0
            = { finalStore :=
                  (s0.map fun x =>
                    if x.id = tA.id then { x with desiredState := TaskState.dead }
                    else x)
                  ++ [tUpd]
                returnedErr := none
                panicked := false })
       ∧ (∀ e, updateTaskTxn tA tUpd s0 = TxResult.rejected e →
            updateTaskModel tA tUpd s0
              = { finalStore := s0, returnedErr := some e, panicked := false })
       ∧ (updateTaskTrace tA tUpd s0).count UAction.storeTx = 1) :=
  ⟨⟨rfl, by decide⟩, C5_transaction_effect tA tUpd s0 rfl (by decide)⟩

/-- doneUpTo is antitone in its bound. -/
theorem doneUpTo_mono {runs : List RunChans} {a b : Nat}
    (h : doneUpTo runs b) (hab : a ≤ b) : doneUpTo runs a :=
  fun j hj r hr => h j (lt_of_lt_of_le hj hab) r hr

/-- doneUpTo extends by one position once the run at the bound is drained. -/
theorem doneUpTo_succ {runs : List RunChans} {k : Nat} {r : RunChans}
    (h : doneUpTo runs k) (hk : runs.get? k = some r)
    (hd : r.doneClosed = true) : doneUpTo runs (k + 1) := by
  intro j hj x hx
  rcases Nat.lt_succ_iff_lt_or_eq.mp hj with hlt | rfl
  · exact h j hlt x hx
  · rw [hk] at hx
    exact (Option.some.inj hx) ▸ hd

/-- Setting a slot to a value that is at least as drained preserves
doneUpTo at every bound. -/
theorem doneUpTo_set {runs : List RunChans} {b k : Nat} {r x : RunChans}
    (h : doneUpTo runs b) (hk : runs.get? k = some r)
    (hdx : x.doneClosed = true ∨ x.doneClosed = r.doneClosed) :
    doneUpTo (runs.set k x) b := by
  intro j hj y hy
  by_cases hjk : k = j
  · subst hjk
    rw [List.get?_set_eq, hk] at hy
    have hyx : y = x := by
      simpa using hy.symm
    subst hyx
    rcases hdx with hx1 | hx2
    · exact hx1
    · rw [hx2]
      exact h k hj r hk
  · rw [List.get?_set_ne x runs hjk] at hy
    exact h j hj y hy

/-- The CancelAll invariant is preserved by every step of the system. -/
theorem caInv_step {s s2 : CAState} (hstep : CAStep s s2) (hinv : caInv s) :
    caInv s2 := by
  cases hstep with
  | closeStopOk k r hpc hk hs =>
    refine ⟨?_, ?_, ?_⟩
    · intro k2 h2
      simp at h2
    · intro k2 h2
      simp only [CAPC.waiting.injEq] at h2
      subst h2
      exact doneUpTo_set (hinv.1 k hpc) hk (Or.inr rfl)
    · intro h2
      simp at h2
  | closeStopPanic k r hpc hk hs =>
    refine ⟨?_, ?_, ?_⟩
    · intro k2 h2
      simp at h2
    · intro k2 h2
      simp at h2
    · intro h2
      simp at h2
  | recvDone k r hpc hk hd =>
    have hup : doneUpTo s.runs (k + 1) :=
      doneUpTo_succ (hinv.2.1 k hpc) hk hd
    by_cases hc : k + 1 < s.runs.length
    · refine ⟨?_, ?_, ?_⟩
      · intro k2 h2
        simp only [if_pos hc, CAPC.cancelling.injEq] at h2
        subst h2
        exact hup
      · intro k2 h2
        simp only [if_pos hc] at h2
        simp at h2
      · intro h2
        simp only [if_pos hc] at h2
        simp at h2
    · refine ⟨?_, ?_, ?_⟩
      · intro k2 h2
        simp only [if_neg hc] at h2
        simp at h2
      · intro k2 h2
        simp only [if_neg hc] at h2
        simp at h2
      · intro h2
        exact doneUpTo_mono hup (Nat.le_of_not_lt hc)
  | loopDone k hpc hk =>
    refine ⟨?_, ?_, ?_⟩
    · intro k2 h2
      simp at h2
    · intro k2 h2
      simp at h2
    · intro h2
      exact doneUpTo_mono (hinv.1 k hpc) hk
  | runFinishes k r hk hd =>
    refine ⟨?_, ?_, ?_⟩
    · intro k2 h2
      exact doneUpTo_set (hinv.1 k2 h2) hk (Or.inl rfl)
    · intro k2 h2
      exact doneUpTo_set (hinv.2.1 k2 h2) hk (Or.inl rfl)
    · intro h2
      rw [List.length_set]
      exact doneUpTo_set (hinv.2.2 h2) hk (Or.inl rfl)

/-- The CancelAll invariant holds in every reachable state. -/
theorem caInv_reach {s s2 : CAState} (h : CAReach s s2) (hinv : caInv s) :
    caInv s2 := by
  induction h with
  | refl => exact hinv
  | tail _ hstep ih => exact caInv_step hstep ih

/-- The CancelAll invariant holds at the entry state, whatever the
registered runs are. -/
theorem caInv_init (runs0 : List RunChans) :
    caInv { runs := runs0, pc := CAPC.cancelling 0 } := by
  refine ⟨?_, ?_, ?_⟩
  · intro k2 h2
    simp only [CAPC.cancelling.injEq] at h2
    subst h2
    intro j hj
    exact absurd hj (Nat.not_lt_zero j)
  · intro k2 h2
    simp at h2
  · intro h2
    simp at h2

/-- Concrete CancelAll execution with one registered run: close its stop
channel, the run finishes, the receive on its done channel completes,
CancelAll returns. -/
theorem caReach03 : CAReach caS0 caS3 := by
  have h01 : CAStep caS0 caS1 := by
    have h := CAStep.closeStopOk caS0 0
      { stopClosed := false, doneClosed := false } rfl rfl rfl
    exact h
  have h12 : CAStep caS1 caS2 := by
    have h := CAStep.runFinishes caS1 0
      { stopClosed := true, doneClosed := false } rfl rfl
    exact h
  have h23 : CAStep caS2 caS3 := by
    have h := CAStep.recvDone caS2 0
      { stopClosed := true, doneClosed := true } rfl rfl rfl
    exact h
  exact Relation.ReflTransGen.head h01
    (Relation.ReflTransGen.head h12 (Relation.ReflTransGen.single h23))

/-- Claim C3 counterexample at a concrete input: with one registered,
unfinished run, no execution of the system reaches a state in which
CancelAll has returned while that run is still unfinished — CancelAll
cannot return immediately, contradicting the claim that it only signals and
does not wait for the runs to finish. -/
theorem C3_cancelAll_counterexample :
    ¬ ∃ s : CAState, CAReach caS0 s ∧ s.pc = CAPC.returned
        ∧ ∃ r, s.runs.get? 0 = some r ∧ r.doneClosed = false := by
  rintro ⟨s, hreach, hret, r, hr, hdone⟩
  have hinv := caInv_reach hreach (caInv_init [{ stopClosed := false, doneClosed := false }])
  have hj : 0 < s.runs.length := by
    by_contra hge
    rw [List.get?_eq_none.mpr (Nat.le_of_not_lt hge)] at hr
    simp at hr
  have hdone2 := hinv.2.2 hret 0 hj r hr
  rw [hdone2] at hdone
  simp at hdone

/-- Claim C3 (corrected, amended): CancelAll signals cancellation to each
registered run in turn and blocks inside Updater.Cancel until that run has
finished; it returns only once every registered run has closed its done
channel, rather than returning immediately without waiting. -/
theorem C3_cancelAll_waits (runs0 : List RunChans) (s : CAState)
    (h : CAReach { runs := runs0, pc := CAPC.cancelling 0 } s)
    (hret : s.pc = CAPC.returned) :
    ∀ j r, s.runs.get? j = some r → r.doneClosed = true := by
  have hinv := caInv_reach h (caInv_init runs0)
  intro j r hjr
  have hj : j < s.runs.length := by
    by_contra hge
    rw [List.get?_eq_none.mpr (Nat.le_of_not_lt hge)] at hjr
    simp at hjr
  exact hinv.2.2 hret j hj r hjr

/-- Witness for the amended C3 at a concrete input: the one-run execution
`caReach03` ends returned, and the theorem yields that the run is
drained. -/
theorem C3_cancelAll_waits_witness :
    CAReach caS0 caS3
    ∧ RunChans.doneClosed { stopClosed := true, doneClosed := true } = true :=
  ⟨caReach03,
   C3_cancelAll_waits [{ stopClosed := false, doneClosed := false }] caS3
     caReach03 rfl 0 { stopClosed := true, doneClosed := true } rfl⟩

/-- Claim C9 counterexample at a concrete input: with stopChan already
closed by a first Cancel and the run still in flight, a second Cancel does
not block — its very first action, close of an already closed channel,
takes a step, and that step is a panic. -/
theorem C9_double_cancel_counterexample :
    cancelStep CancelPC.entry chDouble = some (CancelPC.panicked, chDouble)
    ∧ cancelStep CancelPC.entry chDouble ≠ none := by
  decide

/-- Claim C9 (corrected, amended): the source indeed has no guard against a
second Cancel on the same run, but the second call does not block forever:
in Go, closing an already closed channel panics, so the second Cancel
panics immediately at `close(u.stopChan)` and never reaches its receive;
the panicked call takes no further step. -/
theorem C9_double_cancel_panics (ch : RunChans) (h : ch.stopClosed = true) :
    cancelStep CancelPC.entry ch = some (CancelPC.panicked, ch)
    ∧ cancelStep CancelPC.panicked ch = none := by
  constructor
  · simp [cancelStep, h]
  · rfl

/-- Witness for the amended C9 at the concrete double-cancel channels. -/
theorem C9_double_cancel_panics_witness :
    chDouble.stopClosed = true
    ∧ (cancelStep CancelPC.entry chDouble = some (CancelPC.panicked, chDouble)
       ∧ cancelStep CancelPC.panicked chDouble = none) :=
  ⟨rfl, C9_double_cancel_panics chDouble rfl⟩

end Swarmkit
